import Mathlib

/-!
Verification development for the fasttrack-process-import repository.

The core engine (src/services/excel_processor.py and the tree/merge logic in
src/app.py) manipulates Python dictionaries whose values are strings, ints,
nested string-to-string dicts, or None.  We embed such values as `PyVal`, a
dictionary as an insertion-ordered association list `Dict`, and port each
operation of the source faithfully:

- `_convert_to_work_items`  -> `convert_to_work_items`
- `bulk_replace_field_value` -> `bulk_replace_field_value`
- `bulk_delete_items_by_field_value` -> `bulk_delete_items_by_field_value`
- `_build_tree_structure`    -> `build_tree_structure`
- `merge_models` (endpoint)  -> `merge_models`
-/

namespace Fasttrack

/-- Embedded Python value: string, int, a string-to-string dict (the shape of
`custom_fields`), or None. -/
inductive PyVal where
  | pstr (s : String)
  | pint (n : Int)
  | pdict (m : List (String × String))
  | pnone
  deriving DecidableEq, Repr

open PyVal

/-- A Python dict with string keys, as an insertion-ordered association list
with unique keys. -/
abbrev Dict := List (String × PyVal)

/-- `d[k]` / `k in d` / `d.get(k)`: first binding of key `k`. -/
def dget (d : Dict) (k : String) : Option PyVal := d.lookup k

/-- `d[k] = v`: update the binding in place if the key exists (keeping its
position, as Python dicts do), else append a new binding. -/
def dset (d : Dict) (k : String) (v : PyVal) : Dict :=
  if (d.lookup k).isSome then d.map (fun p => if p.1 = k then (k, v) else p)
  else d ++ [(k, v)]

/-- Same update operation for a string-to-string dict (`custom_fields`). -/
def sset (d : List (String × String)) (k v : String) : List (String × String) :=
  if (d.lookup k).isSome then d.map (fun p => if p.1 = k then (k, v) else p)
  else d ++ [(k, v)]

/-- Python `==` between two dicts: same keys with equal values. -/
def dictEqv (a b : List (String × String)) : Bool :=
  a.all (fun p => b.lookup p.1 = some p.2) && b.all (fun p => a.lookup p.1 = some p.2)

/-- Python `==` between embedded values (values of distinct types compare
unequal, dicts compare extensionally). -/
def pyEq : PyVal → PyVal → Bool
  | pstr a, pstr b => a = b
  | pint a, pint b => a = b
  | pdict a, pdict b => dictEqv a b
  | pnone, pnone => true
  | _, _ => false

/-- Python `v in xs` for a set/list of values. -/
def pyMem (v : PyVal) (xs : List PyVal) : Bool := xs.any (pyEq v)

/-- `set.add`: insert if not already a member. -/
def pyInsert (xs : List PyVal) (v : PyVal) : List PyVal :=
  if pyMem v xs then xs else xs ++ [v]

/-- Python truthiness (`not original_id`, `if area_path:` ...). -/
def pyFalsy : PyVal → Bool
  | pstr s => s = ""
  | pint n => n = 0
  | pdict m => m = []
  | pnone => true

/-! ### Python string primitives

The embedding uses character-list implementations of the Python string
operations the source relies on (`str.strip`, `str.lower`, `str.join`,
`str.split`, `in`, `str.replace`), so that every definition evaluates inside
the kernel.  Only ASCII data reaches these operations in the source. -/

/-- Python whitespace for `str.strip`: space, tab, newline, carriage return,
vertical tab, form feed. -/
def pyIsSpace (c : Char) : Bool :=
  c = ' ' || c = Char.ofNat 9 || c = Char.ofNat 10 || c = Char.ofNat 13 ||
    c = Char.ofNat 11 || c = Char.ofNat 12

/-- Python `str.strip()`. -/
def pyStrip (s : String) : String :=
  String.mk (((s.data.dropWhile pyIsSpace).reverse.dropWhile pyIsSpace).reverse)

/-- ASCII lowercasing of one character (Python `str.lower` on ASCII data). -/
def pyCharLower (c : Char) : Char :=
  if c.toNat ≥ 65 && c.toNat ≤ 90 then Char.ofNat (c.toNat + 32) else c

/-- Python `str.lower()`. -/
def pyLower (s : String) : String := String.mk (s.data.map pyCharLower)

/-- Python `sep.join(xs)`. -/
def pyJoin (sep : String) : List String → String
  | [] => ""
  | [x] => x
  | x :: y :: xs => x ++ sep ++ pyJoin sep (y :: xs)

/-- Worker for `pySplit`. -/
def splitOnCharAux (c : Char) : List Char → List Char → List String
  | [], acc => [String.mk acc.reverse]
  | h :: t, acc =>
    if h = c then String.mk acc.reverse :: splitOnCharAux c t []
    else splitOnCharAux c t (h :: acc)

/-- Python `s.split(c)` for a one-character separator. -/
def pySplit (c : Char) (s : String) : List String := splitOnCharAux c s.data []

/-- The backslash character. -/
def backslash : Char := Char.ofNat 92

/-- Worker for `strContains`. -/
def hasSubList (needle : List Char) : List Char → Bool
  | [] => needle.isEmpty
  | h :: t => needle.isPrefixOf (h :: t) || hasSubList needle t

/-- A single-quote character, used by the Python `str()` rendering of dicts. -/
def sq : String := String.mk [Char.ofNat 39]

/-- Python `str(v)`. -/
def pyStr : PyVal → String
  | pstr s => s
  | pint n => toString n
  | pdict m =>
      "\x7b" ++ pyJoin ", "
        (m.map (fun p => sq ++ p.1 ++ sq ++ ": " ++ sq ++ p.2 ++ sq)) ++ "\x7d"
  | pnone => "None"

/-- `v == old_value` where `old_value` is a Python string. -/
def pyEqStr (v : PyVal) (s : String) : Bool := pyEq v (pstr s)

/-- `v == n` where `n` is a Python int. -/
def pyEqInt (v : PyVal) (n : Int) : Bool := pyEq v (pint n)

/-- `item.get("custom_fields", \x7b\x7d)` read as a string dict.  Work items
always carry a dict here; a missing key yields the empty default. -/
def customOf (item : Dict) : List (String × String) :=
  match dget item "custom_fields" with
  | some (pdict m) => m
  | _ => []

/-- Python `needle in hay` on strings (substring containment). -/
def strContains (hay needle : String) : Bool := hasSubList needle.data hay.data

/-! ## The embedded spreadsheet

A cleaned sheet (after `_clean_dataframe`): trimmed column names and rows of
cells, where a cell is `none` for NaN and `some s` for the string rendering of
a value. -/

structure Sheet where
  name : String
  columns : List String
  rows : List (List (Option String))
  deriving Repr

/-- `row[c]` for a column name: the cell aligned with column `c`, `none` when
the column is absent or the cell is NaN. -/
def cellGet (cols : List String) (row : List (Option String)) (c : String) :
    Option String :=
  ((cols.zip row).lookup c).join

/-- `pd.notna(row[c]) and str(row[c]).strip()`: the trimmed cell value when it
is present and non-blank. -/
def cellMeaningful (cols : List String) (row : List (Option String)) (c : String) :
    Option String :=
  match cellGet cols row c with
  | some s => if pyStrip s = "" then none else some (pyStrip s)
  | none => none

/-! ## `_convert_to_work_items` (excel_processor.py lines 150-324) -/

/-- The `Title 1` .. `Title 5` columns present in the sheet, in order
(lines 156-160). -/
def titleColumns (cols : List String) : List String :=
  (List.range 5).filterMap (fun i =>
    let c := "Title " ++ toString (i + 1)
    if c ∈ cols then some c else none)

/-- The `last_parent_at_level` state: level -> last seen title. -/
abbrev Chain := List (Nat × String)

/-- `last_parent_at_level[level] = title_value` (line 197). -/
def chainSet (ch : Chain) (l : Nat) (t : String) : Chain :=
  if (ch.lookup l).isSome then ch.map (fun p => if p.1 = l then (l, t) else p)
  else ch ++ [(l, t)]

/-- Delete every entry at a level strictly deeper than `l` (lines 200-202). -/
def chainClear (ch : Chain) (l : Nat) : Chain := ch.filter (fun p => p.1 ≤ l)

/-- One title-column update: record the value at this level, then clear all
deeper levels (lines 196-202). -/
def chainUpdate (ch : Chain) (l : Nat) (t : String) : Chain :=
  chainClear (chainSet ch l t) l

/-- The scan over the populated title columns of one row (lines 186-202):
threading (primary_title, hierarchy_level, chain), levels counted from 1 in
title-column order. -/
def rowTitleScan (cols : List String) (row : List (Option String)) (chain : Chain) :
    Option String × Nat × Chain :=
  (titleColumns cols).enum.foldl
    (fun acc p =>
      match cellMeaningful cols row p.2 with
      | some t => (some t, p.1 + 1, chainUpdate acc.2.2 (p.1 + 1) t)
      | none => acc)
    (none, 1, chain)

/-- `area_path_parts` (lines 204-208): chain entries for levels 1..hl, in
level order. -/
def areaParts (chain : Chain) (hl : Nat) : List String :=
  (List.range hl).filterMap (fun j => chain.lookup (j + 1))

/-- Keyword fallback for a title (lines 211-219): first meaningful cell of a
column whose lowercased name contains a title-like keyword. -/
def keywordTitle (cols : List String) (row : List (Option String)) : Option String :=
  (cols.filter (fun c =>
      ["title", "name", "process", "activity", "description"].any
        (fun kw => strContains (pyLower c) kw))).findSome?
    (fun c => cellMeaningful cols row c)

/-- Last-resort fallback (lines 221-226): first meaningful cell of any column. -/
def firstNonEmptyTitle (cols : List String) (row : List (Option String)) :
    Option String :=
  cols.findSome? (fun c => cellMeaningful cols row c)

/-- The fixed Excel-to-Azure-DevOps type alias table (lines 245-257),
defaulting to the raw value (line 258). -/
def typeMapping (t : String) : String :=
  if t = "Epic" then "Epic"
  else if t = "Feature" then "Feature"
  else if t = "User Story" then "User Story"
  else if t = "Story" then "User Story"
  else if t = "Task" then "Task"
  else if t = "Bug" then "Bug"
  else if t = "Issue" then "Bug"
  else if t = "Business Process" then "Epic"
  else if t = "Process Step" then "Feature"
  else if t = "Activity" then "User Story"
  else if t = "Sub-Activity" then "Task"
  else t

/-- Type detection from the alias columns (lines 238-259): first column whose
cell is present and non-blank after trimming yields its mapped value. -/
def detectType (cols : List String) (row : List (Option String)) : Option String :=
  ["Work Item Type", "Type", "Item Type", "WorkItemType"].findSome?
    (fun c =>
      match cellGet cols row c with
      | some s => if pyStrip s = "" then none else some (typeMapping (pyStrip s))
      | none => none)

/-- Hierarchy-level fallback for the type (lines 261-270), applied whenever
the detected type is still the bare default `User Story`. -/
def resolveItemType (cols : List String) (row : List (Option String)) (hl : Nat) :
    String :=
  let t0 := (detectType cols row).getD "User Story"
  if t0 = "User Story" then
    if hl = 1 then "Epic"
    else if hl = 2 then "Feature"
    else if hl = 3 then "User Story"
    else "Task"
  else t0

/-- State resolution (lines 272-275): the trimmed `State` cell whenever the
column exists and the cell is not NaN, else `New`.  Note that a whitespace-only
cell yields the empty string, not `New`. -/
def resolveState (cols : List String) (row : List (Option String)) : String :=
  match cellGet cols row "State" with
  | some s => pyStrip s
  | none => "New"

/-- Tags (line 287): `fasttrack-import;{slug(sheet)};row-{idx}`. -/
def mkTags (sheetName : String) (idx : Nat) : String :=
  "fasttrack-import;" ++
    String.mk ((pyLower sheetName).data.map (fun c => if c = ' ' then '-' else c)) ++
    ";row-" ++ toString idx

/-- Does a column name carry description-like content (line 305)? -/
def descKeyword (c : String) : Bool :=
  ["description", "detail", "summary", "note"].any (fun kw => strContains (pyLower c) kw)

/-- One step of the custom-field capture loop (lines 294-307): store the
trimmed cell under the trimmed column name and promote it to the description
when the name matches a description keyword and the description is still
empty. -/
def addCustomField (item : Dict) (c : String) (v : String) : Dict :=
  let item := dset item "custom_fields" (pdict (sset (customOf item) c v))
  if descKeyword c && (dget item "description" == some (pstr "")) then
    dset item "description" (pstr v)
  else item

/-- The work item dict as first constructed (lines 277-292). -/
def baseWorkItem (sheetName modelId : String) (idx : Nat)
    (primary itemType areaPath state : String) (hl : Nat) : Dict :=
  [("id", pstr (modelId ++ "_" ++ sheetName ++ "_" ++ toString idx)),
   ("title", pstr primary),
   ("description", pstr ""),
   ("type", pstr itemType),
   ("area_path", pstr areaPath),
   ("iteration_path", pstr ""),
   ("priority", pint 2),
   ("state", pstr state),
   ("tags", pstr (mkTags sheetName idx)),
   ("source_sheet", pstr sheetName),
   ("source_row", pint idx),
   ("hierarchy_level", pint hl),
   ("custom_fields", pdict [])]

/-- The custom-field capture loop over all columns (lines 294-307). -/
def captureLoop (cols : List String) (row : List (Option String)) (item : Dict) :
    Dict :=
  cols.foldl
    (fun it c =>
      match cellMeaningful cols row c with
      | some v => addCustomField it (pyStrip c) v
      | none => it) item

/-- `work_item["custom_fields"]["Area Path"] = area_path` (line 310). -/
def setAreaPathCustom (item : Dict) (areaPath : String) : Dict :=
  dset item "custom_fields" (pdict (sset (customOf item) "Area Path" areaPath))

/-- Lift `Catalog Status` to a top-level key when present (lines 313-314). -/
def addCatalogStatus (cols : List String) (row : List (Option String))
    (item : Dict) : Dict :=
  match cellGet cols row "Catalog Status" with
  | some s => dset item "catalog_status" (pstr (pyStrip s))
  | none => item

/-- Lift `Process sequence ID` to a top-level key when present (lines 316-317). -/
def addProcessSeqId (cols : List String) (row : List (Option String))
    (item : Dict) : Dict :=
  match cellGet cols row "Process sequence ID" with
  | some s => dset item "process_sequence_id" (pstr (pyStrip s))
  | none => item

/-- Finish a work item (lines 294-317): capture every meaningful cell as a
custom field, force `custom_fields["Area Path"]` to the computed area path,
and lift the two special columns to top-level keys. -/
def finishWorkItem (cols : List String) (row : List (Option String))
    (item : Dict) (areaPath : String) : Dict :=
  addProcessSeqId cols row
    (addCatalogStatus cols row
      (setAreaPathCustom (captureLoop cols row item) areaPath))

/-- The title after the fallbacks (lines 210-226): the scan result, else the
keyword-column fallback, else the first meaningful cell. -/
def resolvePrimaryTitle (cols : List String) (row : List (Option String))
    (scanPrimary : Option String) : Option String :=
  match scanPrimary with
  | some t => some t
  | none =>
    match keywordTitle cols row with
    | some t => some t
    | none => firstNonEmptyTitle cols row

/-- `area_path = "\\".join(area_path_parts) if area_path_parts else sheet_name`
(line 233). -/
def rowArea (sheetName : String) (parts : List String) : String :=
  if parts = [] then sheetName else pyJoin "\\" parts

/-- The full work item of one row (lines 277-317). -/
def mkRowItem (sheetName modelId : String) (cols : List String)
    (row : List (Option String)) (idx : Nat) (primary : String) (hl : Nat)
    (parts : List String) : Dict :=
  finishWorkItem cols row
    (baseWorkItem sheetName modelId idx primary
      (resolveItemType cols row hl) (rowArea sheetName parts)
      (resolveState cols row) hl)
    (rowArea sheetName parts)

/-- Process one data row (lines 166-319): returns the produced work item (or
`none` when the row is skipped) and the updated ancestor chain.  The title
scan and the area parts are computed only when positional title columns exist
(the `if title_columns:` guard, lines 186-208). -/
def processRow (sheetName modelId : String) (cols : List String)
    (chain : Chain) (idx : Nat) (row : List (Option String)) :
    Option Dict × Chain :=
  -- skip completely empty rows / rows with no meaningful content (166-179)
  if row.all (fun c => c = none) then (none, chain)
  else if !(cols.any (fun c => (cellMeaningful cols row c).isSome)) then (none, chain)
  else
    let scanned := if titleColumns cols = [] then (none, 1, chain)
                   else rowTitleScan cols row chain
    let parts := if titleColumns cols = [] then []
                 else areaParts scanned.2.2 scanned.2.1
    match resolvePrimaryTitle cols row scanned.1 with
    | none => (none, scanned.2.2)   -- line 229: skip, keeping the mutated chain
    | some primaryTitle =>
      (some (mkRowItem sheetName modelId cols row idx primaryTitle scanned.2.1 parts),
       scanned.2.2)

/-- The row loop of `_convert_to_work_items`, threading the ancestor chain and
the positional row index. -/
def convertRows (sheetName modelId : String) (cols : List String) :
    List (List (Option String)) → Nat → Chain → List Dict
  | [], _, _ => []
  | row :: rest, idx, chain =>
    match processRow sheetName modelId cols chain idx row with
    | (some item, chain2) => item :: convertRows sheetName modelId cols rest (idx + 1) chain2
    | (none, chain2) => convertRows sheetName modelId cols rest (idx + 1) chain2

/-- `_convert_to_work_items(df, sheet_name, model_id)`. -/
def convert_to_work_items (sheet : Sheet) (modelId : String) : List Dict :=
  convertRows sheet.name modelId sheet.columns sheet.rows 0 []

/-! ## `bulk_replace_field_value` (excel_processor.py lines 445-485)

The persisted model, restricted to the parts these operations read and write:
the work-item list and the recomputed summary fields. -/

structure BulkModel where
  work_items : List Dict
  work_item_types : List PyVal
  total_rows : Nat
  deriving Repr, DecidableEq

/-- The per-item body of the replace loop (lines 454-463): probe the top-level
key first, and fall through to `custom_fields` whenever that `if` is false,
i.e. when the key is absent or its value does not equal `old_value`. -/
def replaceInItem (fieldName oldValue newValue : String) (item : Dict) :
    Dict × Nat :=
  match dget item fieldName with
  | some v =>
    if pyEqStr v oldValue then (dset item fieldName (pstr newValue), 1)
    else
      match (customOf item).lookup fieldName with
      | some cv =>
        if cv = oldValue then
          (dset item "custom_fields" (pdict (sset (customOf item) fieldName newValue)), 1)
        else (item, 0)
      | none => (item, 0)
  | none =>
    match (customOf item).lookup fieldName with
    | some cv =>
      if cv = oldValue then
        (dset item "custom_fields" (pdict (sset (customOf item) fieldName newValue)), 1)
      else (item, 0)
    | none => (item, 0)

/-- `item.get("type", "Unknown")`. -/
def typeOf (item : Dict) : PyVal := (dget item "type").getD (pstr "Unknown")

/-- The summary recomputation of the distinct work-item types
(lines 466-470 and 565-568). -/
def recomputeTypes (items : List Dict) : List PyVal :=
  items.foldl (fun acc item => pyInsert acc (typeOf item)) []

/-- `bulk_replace_field_value`: mutate every item, count replacements, and
recompute the type summary when the `type` field was targeted. -/
def bulk_replace_field_value (m : BulkModel) (fieldName oldValue newValue : String) :
    BulkModel × Nat :=
  let step := m.work_items.map (replaceInItem fieldName oldValue newValue)
  let items := step.map (·.1)
  let count := (step.map (·.2)).sum
  let types := if fieldName = "type" then recomputeTypes items else m.work_item_types
  (⟨items, types, m.total_rows⟩, count)

/-! ## `bulk_delete_items_by_field_value` (excel_processor.py lines 532-587) -/

/-- The match predicate of the delete loop (lines 545-554): the string-coerced
top-level value, else (when that check fails) the string-coerced custom-field
value. -/
def deleteMatches (fieldName fieldValue : String) (item : Dict) : Bool :=
  match dget item fieldName with
  | some v =>
    if pyStr v = fieldValue then true
    else
      match (customOf item).lookup fieldName with
      | some cv => cv = fieldValue
      | none => false
  | none =>
    match (customOf item).lookup fieldName with
    | some cv => cv = fieldValue
    | none => false

/-- The audit record returned by the delete operation. -/
structure DeleteResult where
  deletion_count : Nat
  original_count : Nat
  remaining_count : Nat
  deleted_items : List (Option PyVal × Option PyVal)
  deriving Repr, DecidableEq

/-- `bulk_delete_items_by_field_value`: partition into kept and removed,
recompute `work_item_types` and `total_rows` from the kept set, and return the
audit counts plus the removed items (id, title). -/
def bulk_delete_items_by_field_value (m : BulkModel) (fieldName fieldValue : String) :
    BulkModel × DeleteResult :=
  let remaining := m.work_items.filter (fun it => !(deleteMatches fieldName fieldValue it))
  let deleted := m.work_items.filter (fun it => deleteMatches fieldName fieldValue it)
  (⟨remaining, recomputeTypes remaining, remaining.length⟩,
   ⟨deleted.length, m.work_items.length, remaining.length,
    deleted.map (fun it => (dget it "id", dget it "title"))⟩)

/-! ## `_build_tree_structure` (app.py lines 281-353) -/

/-- `item.get("custom_fields", \x7b\x7d).get("Area Path", item.get("area_path", ""))`
(line 291). -/
def resolvedAreaPath (item : Dict) : PyVal :=
  match dget item "custom_fields" with
  | some (pdict m) =>
    match m.lookup "Area Path" with
    | some s => pstr s
    | none => (dget item "area_path").getD (pstr "")
  | _ => (dget item "area_path").getD (pstr "")

/-- A display node (lines 294-306); `children` is recovered from the computed
parent assignment, `is_folder` is constantly false. -/
structure TreeNode where
  nid : PyVal
  title : PyVal
  ntype : PyVal
  state : PyVal
  priority : PyVal
  area_path : PyVal
  hierarchy_level : PyVal
  description : PyVal
  work_item_data : Dict
  deriving Repr, DecidableEq

/-- Build one node from a work item (lines 290-308). -/
def mkNode (item : Dict) : TreeNode :=
  ⟨(dget item "id").getD pnone,
   (dget item "title").getD (pstr "Unknown"),
   (dget item "type").getD (pstr "Unknown"),
   (dget item "state").getD (pstr "New"),
   (dget item "priority").getD (pint 2),
   resolvedAreaPath item,
   (dget item "hierarchy_level").getD (pint 1),
   (dget item "description").getD (pstr ""),
   item⟩

/-- The `all_nodes` dict keyed by `item.get("id")` with Python equality on the
keys (line 308); later items overwrite earlier ones with an equal id. -/
def pdset (d : List (PyVal × TreeNode)) (k : PyVal) (v : TreeNode) :
    List (PyVal × TreeNode) :=
  if d.any (fun p => pyEq p.1 k) then d.map (fun p => if pyEq p.1 k then (k, v) else p)
  else d ++ [(k, v)]

/-- First pass (lines 289-313): every work item becomes a node in `all_nodes`. -/
def buildAllNodes (items : List Dict) : List (PyVal × TreeNode) :=
  items.foldl (fun acc item => pdset acc ((dget item "id").getD pnone) (mkNode item)) []

/-- `"\\".join(path_parts[:-1])` for a string area path. -/
def parentPathOf (p : String) : String :=
  pyJoin "\\" (pySplit backslash p).dropLast

/-- Second pass, parent search for one node (lines 318-343): a truthy area
path with more than one segment looks for the first node whose area path
equals the parent path and whose level is exactly one less.  Work items carry
a string area path and an int level; other shapes would raise in the source
and are excluded by the well-formedness hypotheses of the theorems. -/
def findParentStr (nodes : List TreeNode) (p : String) (lvl : Int) :
    Option TreeNode :=
  if p ≠ "" then
    if (pySplit backslash p).length > 1 then
      nodes.find? (fun q =>
        pyEqStr q.area_path (parentPathOf p) && pyEqInt q.hierarchy_level (lvl - 1))
    else none
  else none

def findParent (nodes : List TreeNode) (n : TreeNode) : Option TreeNode :=
  match n.area_path, n.hierarchy_level with
  | pstr p, pint lvl => findParentStr nodes p lvl
  | _, _ => none

/-- The children appended to a node during the second pass, in iteration
order. -/
def childrenOf (nodes : List TreeNode) (q : TreeNode) : List TreeNode :=
  nodes.filter (fun n => findParent nodes n == some q)

/-- The result of `_build_tree_structure` (lines 345-353). -/
structure TreeResult where
  roots : List TreeNode
  total_items : Nat
  total_folders : Nat
  deriving Repr, DecidableEq

/-- `_build_tree_structure(model_data)` over the model's work items. -/
def build_tree_structure (items : List Dict) : TreeResult :=
  let nodes := (buildAllNodes items).map (·.2)
  ⟨nodes.filter (fun n => (findParent nodes n).isNone), items.length, 0⟩

/-! ## `merge_models` (app.py lines 561-679) -/

/-- A persisted model as the merge endpoint reads it: the display filename
(`model_data.get("filename", ...)`) and the work-item list. -/
structure StoredModel where
  filename : Option String
  work_items : List Dict
  deriving Repr, DecidableEq

/-- The model store interface: id -> stored model. -/
abbrev Store := List (String × StoredModel)

/-- One storage access, recorded to state the no-I/O-before-validation
property. -/
inductive StoreOp where
  | read (id : String)
  | write (id : String)
  deriving DecidableEq, Repr

/-- The two failure modes of the merge endpoint: HTTP 400 validation errors
and HTTP 404 for a missing source model. -/
inductive MergeError where
  | validation (detail : String)
  | notFound (detail : String)
  deriving DecidableEq, Repr

/-- `f"MERGED_{id_counter:04d}"` (line 611). -/
def mergedId (n : Nat) : String :=
  let s := toString n
  "MERGED_" ++ (if s.length < 4 then String.mk (List.replicate (4 - s.length) (Char.ofNat 48)) ++ s else s)

/-- `item.get("ID", item.get("id", ""))` (line 608). -/
def originalIdOf (item : Dict) : PyVal :=
  match dget item "ID" with
  | some v => v
  | none => (dget item "id").getD (pstr "")

/-- `item.get("custom_fields", \x7b\x7d).get("Iteration Path", item.get("iteration", ""))`
(line 622). -/
def resolvedIterationPath (item : Dict) : PyVal :=
  match dget item "custom_fields" with
  | some (pdict m) =>
    match m.lookup "Iteration Path" with
    | some s => pstr s
    | none => (dget item "iteration").getD (pstr "")
  | _ => (dget item "iteration").getD (pstr "")

/-- `item.get("Work Item Type", item.get("type", ""))` (line 623). -/
def mergeTypeOf (item : Dict) : PyVal :=
  match dget item "Work Item Type" with
  | some v => v
  | none => (dget item "type").getD (pstr "")

/-- The running state of the merge loop (lines 590-598): accumulated items,
the set of already-used ids, the synthetic-id counter, and the three
summary sets. -/
structure MergeState where
  merged : List Dict
  usedIds : List PyVal
  counter : Nat
  areaPaths : List PyVal
  iterations : List PyVal
  itemTypes : List PyVal
  deriving Repr

/-- Append the processed item and collect the three summary sets from it
(lines 620-632). -/
def mergeCollect (st : MergeState) (item2 : Dict) : MergeState :=
  { st with
    merged := st.merged ++ [item2]
    areaPaths := if !pyFalsy (resolvedAreaPath item2) then
        pyInsert st.areaPaths (resolvedAreaPath item2) else st.areaPaths
    iterations := if !pyFalsy (resolvedIterationPath item2) then
        pyInsert st.iterations (resolvedIterationPath item2) else st.iterations
    itemTypes := if !pyFalsy (mergeTypeOf item2) then
        pyInsert st.itemTypes (mergeTypeOf item2) else st.itemTypes }

/-- One iteration of the inner item loop (lines 606-632): rename empty or
duplicate ids to `MERGED_%04d` keeping the displaced id in `Original_ID`, tag
the source model, and collect the summary sets from the mutated item. -/
def mergeStep (filename : String) (st : MergeState) (item : Dict) : MergeState :=
  if pyMem (originalIdOf item) st.usedIds || pyFalsy (originalIdOf item) then
    mergeCollect { st with counter := st.counter + 1 }
      (dset (dset (dset item "ID" (pstr (mergedId st.counter)))
        "Original_ID" (originalIdOf item)) "Source_Model" (pstr filename))
  else
    mergeCollect { st with usedIds := pyInsert st.usedIds (originalIdOf item) }
      (dset item "Source_Model" (pstr filename))

/-- The merged model (lines 639-656): new id, the requested display name,
source `merged`, the concatenated work items and the recomputed summary. -/
structure MergedModel where
  id : String
  filename : String
  source : String
  work_items : List Dict
  total_rows : Nat
  unique_area_paths : Nat
  unique_iterations : Nat
  unique_work_item_types : Nat
  work_item_types : List PyVal
  source_models : List String
  source_model_count : Nat
  deriving Repr

/-- `excel_processor.get_model_data(model_id)` against the abstract store. -/
def storeGet (store : Store) (id : String) : Option StoredModel := store.lookup id

/-- The model-loading loop (lines 572-587): read each requested id, fail with
404 at the first miss.  Returns the recorded reads together with the loaded
(id, filename, items) triples. -/
def loadModels (store : Store) : List String → List StoreOp × Except MergeError (List (String × String × List Dict))
  | [] => ([], Except.ok [])
  | id :: rest =>
    match storeGet store id with
    | none => ([StoreOp.read id], Except.error (MergeError.notFound ("Model " ++ id ++ " not found")))
    | some m =>
      match loadModels store rest with
      | (ops, Except.error e) => (StoreOp.read id :: ops, Except.error e)
      | (ops, Except.ok tl) =>
        (StoreOp.read id :: ops,
         Except.ok ((id, m.filename.getD ("Model " ++ id), m.work_items) :: tl))

/-- The merge endpoint (lines 561-679), with the generated uuid for the new
model passed in as `newId`.  Returns the result, the store after the
operation, and the storage accesses performed, in order. -/
def merge_models (store : Store) (model_ids : List String)
    (merged_model_name : String) (newId : String) :
    Except MergeError MergedModel × Store × List StoreOp :=
  if model_ids.length < 2 then
    (Except.error (MergeError.validation "At least 2 models are required for merging"), store, [])
  else if pyStrip merged_model_name = "" then
    (Except.error (MergeError.validation "Merged model name is required"), store, [])
  else
    match loadModels store model_ids with
    | (ops, Except.error e) => (Except.error e, store, ops)
    | (ops, Except.ok models) =>
      let finalState := models.foldl
        (fun st m => (m.2.2).foldl (mergeStep m.2.1) st)
        ⟨[], [], 1, [], [], []⟩
      let merged : MergedModel :=
        { id := newId
          filename := merged_model_name
          source := "merged"
          work_items := finalState.merged
          total_rows := finalState.merged.length
          unique_area_paths := finalState.areaPaths.length
          unique_iterations := finalState.iterations.length
          unique_work_item_types := finalState.itemTypes.length
          work_item_types := finalState.itemTypes
          source_models := models.map (fun m => m.2.1)
          source_model_count := models.length }
      (Except.ok merged,
       store ++ [(newId, ⟨some merged_model_name, finalState.merged⟩)],
       ops ++ [StoreOp.write newId])

/-! ## Association-list dictionary lemmas -/

theorem lookup_update_self {α β : Type} [BEq α] [LawfulBEq α] [DecidableEq α]
    (d : List (α × β)) (k : α) (v : β) :
    (if (d.lookup k).isSome then d.map (fun p => if p.1 = k then (k, v) else p)
     else d ++ [(k, v)]).lookup k = some v := by
  by_cases h : (d.lookup k).isSome
  · simp only [if_pos h]
    induction d with
    | nil => simp at h
    | cons p tl ih =>
      rw [List.map_cons]
      by_cases hk : p.1 = k
      · rw [if_pos hk]; simp [List.lookup]
      · have hne : (k == p.1) = false := by
          simp only [beq_eq_false_iff_ne]; exact fun he => hk he.symm
        have htl : (tl.lookup k).isSome := by
          simpa [List.lookup, hne] using h
        rw [if_neg hk]
        simp [List.lookup, hne, ih htl]
  · simp only [if_neg h]
    induction d with
    | nil => simp [List.lookup]
    | cons p tl ih =>
      by_cases hk : k = p.1
      · exfalso; apply h; simp [List.lookup, hk]
      · have hne : (k == p.1) = false := by simp only [beq_eq_false_iff_ne]; exact hk
        have htl : ¬(tl.lookup k).isSome := by
          intro hs; apply h; simpa [List.lookup, hne] using hs
        simp [List.lookup, hne, ih htl]

theorem lookup_map_keyUpdate {α β : Type} [BEq α] [LawfulBEq α] [DecidableEq α]
    (d : List (α × β)) (k k₂ : α) (v : β) (hne : k₂ ≠ k) :
    (d.map (fun p => if p.1 = k then (k, v) else p)).lookup k₂ = d.lookup k₂ := by
  have hbne : (k₂ == k) = false := by simp [beq_iff_eq, hne]
  induction d with
  | nil => simp
  | cons p tl ih =>
    rw [List.map_cons]
    by_cases hk : p.1 = k
    · have hb2 : (k₂ == p.1) = false := by
        simp only [beq_eq_false_iff_ne]; intro he; exact hne (he.trans hk)
      rw [if_pos hk]
      simp [List.lookup, hbne, hb2, ih]
    · rw [if_neg hk]
      by_cases h2 : k₂ = p.1
      · simp [List.lookup, h2]
      · have hb2 : (k₂ == p.1) = false := by simp only [beq_eq_false_iff_ne]; exact h2
        simp [List.lookup, hb2, ih]

theorem lookup_append_single_ne {α β : Type} [BEq α] [LawfulBEq α]
    (d : List (α × β)) (k k₂ : α) (v : β) (hne : k₂ ≠ k) :
    (d ++ [(k, v)]).lookup k₂ = d.lookup k₂ := by
  have hbne : (k₂ == k) = false := by simp [beq_iff_eq, hne]
  induction d with
  | nil => simp [List.lookup, hbne]
  | cons p tl ih => by_cases h2 : k₂ = p.1 <;> simp [List.lookup, h2, beq_iff_eq, ih]

theorem lookup_update_ne {α β : Type} [BEq α] [LawfulBEq α] [DecidableEq α]
    (d : List (α × β)) (k k₂ : α) (v : β) (hne : k₂ ≠ k) :
    (if (d.lookup k).isSome then d.map (fun p => if p.1 = k then (k, v) else p)
     else d ++ [(k, v)]).lookup k₂ = d.lookup k₂ := by
  by_cases h : (d.lookup k).isSome
  · simp only [if_pos h]; exact lookup_map_keyUpdate d k k₂ v hne
  · simp only [if_neg h]; exact lookup_append_single_ne d k k₂ v hne

/-- `dget` after `dset` at the same key. -/
theorem dget_dset_self (d : Dict) (k : String) (v : PyVal) :
    dget (dset d k v) k = some v :=
  lookup_update_self d k v

/-- `dget` after `dset` at a different key. -/
theorem dget_dset_ne (d : Dict) (k k₂ : String) (v : PyVal) (hne : k₂ ≠ k) :
    dget (dset d k v) k₂ = dget d k₂ :=
  lookup_update_ne d k k₂ v hne

/-- `sset` lookup at the written key. -/
theorem sget_sset_self (d : List (String × String)) (k v : String) :
    (sset d k v).lookup k = some v :=
  lookup_update_self d k v

/-- `sset` lookup at a different key. -/
theorem sget_sset_ne (d : List (String × String)) (k k₂ v : String) (hne : k₂ ≠ k) :
    (sset d k v).lookup k₂ = d.lookup k₂ :=
  lookup_update_ne d k k₂ v hne

/-! ## Structure lemmas about the converter -/

/-- The custom-field capture step only writes the `custom_fields` and
`description` keys. -/
theorem dget_addCustomField_ne (it : Dict) (c v k : String)
    (h1 : k ≠ "custom_fields") (h2 : k ≠ "description") :
    dget (addCustomField it c v) k = dget it k := by
  show dget (if _ then _ else _) k = dget it k
  split
  · rw [dget_dset_ne _ _ _ _ h2, dget_dset_ne _ _ _ _ h1]
  · rw [dget_dset_ne _ _ _ _ h1]

/-- The whole capture loop only writes `custom_fields` and `description`
(stated over an arbitrary column list `l`, used with `l = cols`). -/
theorem dget_captureFold_ne (cols l : List String) (row : List (Option String))
    (k : String) (h1 : k ≠ "custom_fields") (h2 : k ≠ "description") :
    ∀ it : Dict,
      dget (l.foldl (fun it c =>
        match cellMeaningful cols row c with
        | some v => addCustomField it (pyStrip c) v
        | none => it) it) k = dget it k := by
  induction l with
  | nil => intro it; rfl
  | cons c tl ih =>
    intro it
    rw [List.foldl_cons, ih]
    cases hc : cellMeaningful cols row c with
    | some v => simp only [hc, dget_addCustomField_ne _ _ _ _ h1 h2]
    | none => simp only [hc]

theorem dget_captureLoop_ne (cols : List String) (row : List (Option String))
    (it : Dict) (k : String) (h1 : k ≠ "custom_fields") (h2 : k ≠ "description") :
    dget (captureLoop cols row it) k = dget it k :=
  dget_captureFold_ne cols cols row k h1 h2 it

theorem dget_addCatalogStatus_ne (cols : List String) (row : List (Option String))
    (it : Dict) (k : String) (h : k ≠ "catalog_status") :
    dget (addCatalogStatus cols row it) k = dget it k := by
  unfold addCatalogStatus
  cases cellGet cols row "Catalog Status" <;> simp only
  rw [dget_dset_ne _ _ _ _ h]

theorem dget_addProcessSeqId_ne (cols : List String) (row : List (Option String))
    (it : Dict) (k : String) (h : k ≠ "process_sequence_id") :
    dget (addProcessSeqId cols row it) k = dget it k := by
  unfold addProcessSeqId
  cases cellGet cols row "Process sequence ID" <;> simp only
  rw [dget_dset_ne _ _ _ _ h]

/-- `finishWorkItem` only writes `custom_fields`, `description`,
`catalog_status` and `process_sequence_id`. -/
theorem dget_finishWorkItem_ne (cols : List String) (row : List (Option String))
    (item : Dict) (areaPath k : String)
    (h1 : k ≠ "custom_fields") (h2 : k ≠ "description")
    (h3 : k ≠ "catalog_status") (h4 : k ≠ "process_sequence_id") :
    dget (finishWorkItem cols row item areaPath) k = dget item k := by
  unfold finishWorkItem setAreaPathCustom
  rw [dget_addProcessSeqId_ne _ _ _ _ h4, dget_addCatalogStatus_ne _ _ _ _ h3,
    dget_dset_ne _ _ _ _ h1, dget_captureLoop_ne _ _ _ _ h1 h2]

/-- After `finishWorkItem`, `custom_fields["Area Path"]` holds exactly the
passed area path. -/
theorem customOf_finishWorkItem (cols : List String) (row : List (Option String))
    (item : Dict) (areaPath : String) :
    ∃ m, dget (finishWorkItem cols row item areaPath) "custom_fields" = some (pdict m) ∧
      m.lookup "Area Path" = some areaPath := by
  refine ⟨sset (customOf (captureLoop cols row item)) "Area Path" areaPath, ?_,
    sget_sset_self _ "Area Path" areaPath⟩
  unfold finishWorkItem setAreaPathCustom
  rw [dget_addProcessSeqId_ne _ _ _ _ (by decide),
    dget_addCatalogStatus_ne _ _ _ _ (by decide), dget_dset_self]

/-- Every produced row item is a `mkRowItem` for the scan state of its row. -/
theorem processRow_some (sheetName modelId : String) (cols : List String)
    (chain : Chain) (idx : Nat) (row : List (Option String)) (item : Dict) (chain2 : Chain)
    (h : processRow sheetName modelId cols chain idx row = (some item, chain2)) :
    ∃ primary,
      resolvePrimaryTitle cols row
        (if titleColumns cols = [] then (none, 1, chain)
         else rowTitleScan cols row chain).1 = some primary ∧
      chain2 = (if titleColumns cols = [] then ((none : Option String), 1, chain)
                else rowTitleScan cols row chain).2.2 ∧
      item = mkRowItem sheetName modelId cols row idx primary
        (if titleColumns cols = [] then ((none : Option String), 1, chain)
         else rowTitleScan cols row chain).2.1
        (if titleColumns cols = [] then []
         else areaParts (if titleColumns cols = [] then ((none : Option String), 1, chain)
                         else rowTitleScan cols row chain).2.2
           (if titleColumns cols = [] then ((none : Option String), 1, chain)
            else rowTitleScan cols row chain).2.1) := by
  unfold processRow at h
  split at h
  · simp at h
  split at h
  · simp at h
  by_cases ht : titleColumns cols = []
  · simp only [if_pos ht] at h ⊢
    cases hp : resolvePrimaryTitle cols row none with
    | none => simp only [hp] at h; simp at h
    | some primary =>
      simp only [hp, Prod.mk.injEq, Option.some.injEq] at h
      exact ⟨primary, rfl, h.2.symm, h.1.symm⟩
  · simp only [if_neg ht] at h ⊢
    cases hp : resolvePrimaryTitle cols row (rowTitleScan cols row chain).1 with
    | none => simp only [hp] at h; simp at h
    | some primary =>
      simp only [hp, Prod.mk.injEq, Option.some.injEq] at h
      exact ⟨primary, rfl, h.2.symm, h.1.symm⟩

/-- Any property established for every item produced by `processRow` holds for
every item of the row loop. -/
theorem mem_convertRows (sheetName modelId : String) (cols : List String)
    (P : Dict → Prop)
    (hstep : ∀ chain idx row item chain2,
      processRow sheetName modelId cols chain idx row = (some item, chain2) → P item) :
    ∀ (rows : List (List (Option String))) (idx : Nat) (chain : Chain) (item : Dict),
      item ∈ convertRows sheetName modelId cols rows idx chain → P item := by
  intro rows
  induction rows with
  | nil => intro idx chain item hmem; simp [convertRows] at hmem
  | cons r rest ih =>
    intro idx chain item hmem
    unfold convertRows at hmem
    cases hp : processRow sheetName modelId cols chain idx r with
    | mk o c2 =>
      cases o with
      | some it =>
        rw [hp] at hmem
        simp only [List.mem_cons] at hmem
        cases hmem with
        | inl he => exact he ▸ hstep chain idx r it c2 hp
        | inr hm => exact ih (idx + 1) c2 item hm
      | none =>
        rw [hp] at hmem
        exact ih (idx + 1) c2 item hmem

/-- Same, at the level of `_convert_to_work_items`. -/
theorem mem_convert (sheet : Sheet) (modelId : String) (P : Dict → Prop)
    (hstep : ∀ chain idx row item chain2,
      processRow sheet.name modelId sheet.columns chain idx row = (some item, chain2) → P item) :
    ∀ item ∈ convert_to_work_items sheet modelId, P item := by
  intro item hmem
  exact mem_convertRows sheet.name modelId sheet.columns P hstep sheet.rows 0 [] item hmem

/-- The `area_path` attribute of a row item. -/
theorem dget_mkRowItem_area (sheetName modelId : String) (cols : List String)
    (row : List (Option String)) (idx : Nat) (primary : String) (hl : Nat)
    (parts : List String) :
    dget (mkRowItem sheetName modelId cols row idx primary hl parts) "area_path" =
      some (pstr (rowArea sheetName parts)) := by
  unfold mkRowItem
  rw [dget_finishWorkItem_ne _ _ _ _ _ (by decide) (by decide) (by decide) (by decide)]
  rfl

/-- The `state` attribute of a row item. -/
theorem dget_mkRowItem_state (sheetName modelId : String) (cols : List String)
    (row : List (Option String)) (idx : Nat) (primary : String) (hl : Nat)
    (parts : List String) :
    dget (mkRowItem sheetName modelId cols row idx primary hl parts) "state" =
      some (pstr (resolveState cols row)) := by
  unfold mkRowItem
  rw [dget_finishWorkItem_ne _ _ _ _ _ (by decide) (by decide) (by decide) (by decide)]
  rfl

/-- The `custom_fields["Area Path"]` entry of a row item. -/
theorem custom_mkRowItem (sheetName modelId : String) (cols : List String)
    (row : List (Option String)) (idx : Nat) (primary : String) (hl : Nat)
    (parts : List String) :
    ∃ m, dget (mkRowItem sheetName modelId cols row idx primary hl parts)
        "custom_fields" = some (pdict m) ∧
      m.lookup "Area Path" = some (rowArea sheetName parts) := by
  unfold mkRowItem
  exact customOf_finishWorkItem cols row _ (rowArea sheetName parts)

/-! ## Claim C3 -/

/-- C3: setting a title at level L discards every ancestor-chain entry at a
level strictly greater than L (every surviving entry sits at level at most L);
consequently, for the rows Title 1 = A, Title 2 = B, Title 1 = C processed in
that order within one sheet, the work item of the third row (source_row 2) has
area_path exactly `C`. -/
theorem c3_shallower_title_truncates_chain :
    (∀ (ch : Chain) (l : Nat) (t : String),
      (chainUpdate ch l t).all (fun p => decide (p.1 ≤ l)) = true) ∧
    ((convert_to_work_items ⟨"S", ["Title 1", "Title 2"],
        [[some "A", none], [none, some "B"], [some "C", none]]⟩ "m").map
      (fun it => (dget it "source_row", dget it "area_path")))[2]? =
      some (some (pint 2), some (pstr "C")) := by
  constructor
  · intro ch l t
    rw [List.all_eq_true]
    intro p hp
    unfold chainUpdate chainClear at hp
    exact (List.mem_filter.mp hp).2
  · decide

/-! ## Claim C5 -/

/-- C5: every work item produced by ingestion carries
`custom_fields["Area Path"]` equal to its computed `area_path` attribute
(the converter rewrites the entry after capturing the literal columns, so a
literal `Area Path` column cannot survive with a different value). -/
theorem c5_custom_area_path_matches_computed (sheet : Sheet) (modelId : String) :
    ∀ item ∈ convert_to_work_items sheet modelId,
      ∃ ap m, dget item "area_path" = some (pstr ap) ∧
        dget item "custom_fields" = some (pdict m) ∧
        m.lookup "Area Path" = some ap := by
  refine mem_convert sheet modelId _ ?_
  intro chain idx row item chain2 hp
  obtain ⟨primary, -, -, hitem⟩ := processRow_some _ _ _ _ _ _ _ _ hp
  rw [hitem]
  obtain ⟨m, hm1, hm2⟩ := custom_mkRowItem sheet.name modelId sheet.columns row idx primary _ _
  exact ⟨_, m, dget_mkRowItem_area _ _ _ _ _ _ _ _, hm1, hm2⟩

/-- The sheet of the C5 witness: a literal `Area Path` column whose cell value
`Lit` differs from the computed area path `T`. -/
def c5sheet : Sheet := ⟨"WS", ["Title 1", "Area Path"], [[some "T", some "Lit"]]⟩

/-- C5 witness: the theorem applied to a concrete sheet whose literal
`Area Path` column is overridden. -/
theorem c5_custom_area_path_matches_computed_witness :
    ∃ ap m,
      dget ((convert_to_work_items c5sheet "m").headD []) "area_path" = some (pstr ap) ∧
      dget ((convert_to_work_items c5sheet "m").headD []) "custom_fields" = some (pdict m) ∧
      m.lookup "Area Path" = some ap :=
  c5_custom_area_path_matches_computed c5sheet "m"
    ((convert_to_work_items c5sheet "m").headD []) (by decide)

/-! ## Claim C8 (corrected) -/

/-- C8 counterexample: a `State` cell holding only whitespace is not NaN, so
the source takes the trimmed value, producing the empty string rather than the
claimed default `New`. -/
theorem c8_whitespace_state_counterexample :
    (convert_to_work_items ⟨"S", ["Title 1", "State"], [[some "A", some " "]]⟩ "m").map
      (fun it => dget it "state") = [some (pstr "")] ∧
    pstr "" ≠ pstr "New" := by
  constructor
  · decide
  · decide

/-- C8 amended: a produced work item's state is the stripped `State` cell
whenever the column exists and the cell is non-null — including the empty
string when the cell holds only whitespace — and `New` exactly when the column
is absent or the cell is null (`resolveState` is the verbatim embedding of
excel_processor.py lines 272-275). -/
theorem c8_state_resolution (sheetName modelId : String) (cols : List String)
    (chain : Chain) (idx : Nat) (row : List (Option String)) (item : Dict)
    (chain2 : Chain)
    (h : processRow sheetName modelId cols chain idx row = (some item, chain2)) :
    dget item "state" =
      some (pstr (match cellGet cols row "State" with
                  | some s => pyStrip s
                  | none => "New")) := by
  obtain ⟨primary, -, -, hitem⟩ := processRow_some _ _ _ _ _ _ _ _ h
  rw [hitem, dget_mkRowItem_state]
  rfl

/-- C8 amended witness: a concrete row with `State = Done`. -/
theorem c8_state_resolution_witness :
    dget ((processRow "S" "m" ["Title 1", "State"] [] 0 [some "A", some "Done"]).1.getD [])
      "state" = some (pstr "Done") := by
  have h := c8_state_resolution "S" "m" ["Title 1", "State"] [] 0
    [some "A", some "Done"]
    ((processRow "S" "m" ["Title 1", "State"] [] 0 [some "A", some "Done"]).1.getD [])
    (processRow "S" "m" ["Title 1", "State"] [] 0 [some "A", some "Done"]).2
    (by decide)
  rw [h]; decide

/-! ## Claim C10 -/

/-- C10: when a sheet has none of the positional columns `Title 1`..`Title 5`,
every work item produced from it has `area_path` equal to the sheet name (the
ancestor-chain join is empty and the sheet name is substituted). -/
theorem c10_no_title_columns_area_is_sheet_name (sheet : Sheet) (modelId : String)
    (h : ∀ i ∈ List.range 5, ("Title " ++ toString (i + 1)) ∉ sheet.columns) :
    ∀ item ∈ convert_to_work_items sheet modelId,
      dget item "area_path" = some (pstr sheet.name) := by
  have ht : titleColumns sheet.columns = [] := by
    unfold titleColumns
    rw [List.filterMap_eq_nil_iff]
    intro i hi
    simp only
    rw [if_neg (h i hi)]
  refine mem_convert sheet modelId _ ?_
  intro chain idx row item chain2 hp
  obtain ⟨primary, -, -, hitem⟩ := processRow_some _ _ _ _ _ _ _ _ hp
  rw [hitem, dget_mkRowItem_area]
  simp only [if_pos ht]
  rfl

/-- C10 witness: a sheet with no positional title columns. -/
def c10sheet : Sheet := ⟨"MySheet", ["Name", "Foo"], [[some "X", some "1"]]⟩

/-- C10 witness: the theorem applied to `c10sheet`. -/
theorem c10_no_title_columns_area_is_sheet_name_witness :
    dget ((convert_to_work_items c10sheet "m").headD []) "area_path" =
      some (pstr "MySheet") :=
  c10_no_title_columns_area_is_sheet_name c10sheet "m" (by decide)
    ((convert_to_work_items c10sheet "m").headD []) (by decide)

/-! ## Lemmas about the bulk mutators -/

theorem pyEqStr_iff (v : PyVal) (s : String) : pyEqStr v s = true ↔ v = pstr s := by
  cases v <;> simp [pyEqStr, pyEq]

theorem pyEqStr_pstr_false (a s : String) (h : a ≠ s) :
    pyEqStr (pstr a) s = false := by
  simp [pyEqStr, pyEq, h]

theorem customOf_dset_custom (item : Dict) (m : List (String × String)) :
    customOf (dset item "custom_fields" (pdict m)) = m := by
  unfold customOf; rw [dget_dset_self]

theorem customOf_dset_ne (item : Dict) (k : String) (v : PyVal)
    (h : k ≠ "custom_fields") :
    customOf (dset item k v) = customOf item := by
  unfold customOf
  rw [dget_dset_ne _ _ _ _ (fun he => h he.symm)]

/-- Replace, per item: the top-level branch fires when the key exists with a
value equal to old. -/
theorem replaceInItem_top_hit (item : Dict) (F old new : String) (v : PyVal)
    (hv : dget item F = some v) (heq : pyEqStr v old = true) :
    replaceInItem F old new item = (dset item F (pstr new), 1) := by
  unfold replaceInItem
  rw [hv]
  simp only [heq, if_true]

/-- Replace, per item: when the top-level key is absent or its value differs
from old, the item falls through to the custom-field branch. -/
theorem replaceInItem_top_miss (item : Dict) (F old new : String)
    (hmiss : ∀ v, dget item F = some v → pyEqStr v old = false) :
    replaceInItem F old new item =
      (if (customOf item).lookup F = some old
       then dset item "custom_fields" (pdict (sset (customOf item) F new))
       else item,
       if (customOf item).lookup F = some old then 1 else 0) := by
  unfold replaceInItem
  cases hv : dget item F with
  | some v =>
    have hne := hmiss v hv
    cases hc : (customOf item).lookup F with
    | some cv =>
      by_cases hcv : cv = old
      · subst hcv; simp [hne]
      · simp [hne, hcv]
    | none => simp [hne]
  | none =>
    cases hc : (customOf item).lookup F with
    | some cv =>
      by_cases hcv : cv = old
      · subst hcv; simp
      · simp [hcv]
    | none => simp

/-! ## Claim C1 (corrected) -/

/-- The C1 counterexample work item: `state` both as a top-level attribute
(`Done`) and as a custom-field key (`X`). -/
def c1item : Dict :=
  [("id", pstr "m_S_0"), ("title", pstr "T"), ("description", pstr ""),
   ("type", pstr "Epic"), ("area_path", pstr "A"), ("iteration_path", pstr ""),
   ("priority", pint 2), ("state", pstr "Done"), ("tags", pstr "t"),
   ("source_sheet", pstr "S"), ("source_row", pint 0), ("hierarchy_level", pint 1),
   ("custom_fields", pdict [("state", "X")])]

/-- The C1 counterexample model. -/
def c1model : BulkModel := ⟨[c1item], [pstr "Epic"], 1⟩

/-- C1 counterexample: although `state` exists as a top-level attribute, a
bulk replace whose old value does not match the top-level value falls through
to `custom_fields["state"]` and rewrites it — the claim said the custom entry
stays unchanged regardless of whether the top-level value equals old. -/
theorem c1_counterexample :
    dget c1item "state" = some (pstr "Done") ∧
    (customOf c1item).lookup "state" = some "X" ∧
    (customOf ((bulk_replace_field_value c1model "state" "X" "Y").1.work_items.headD [])).lookup
      "state" = some "Y" ∧
    (bulk_replace_field_value c1model "state" "X" "Y").2 = 1 := by
  refine ⟨by decide, by decide, by decide, by decide⟩

/-- C1 amended: bulk replace checks the top-level attribute first.  When the
top-level attribute exists with value equal to old, only the top-level
attribute is written and `custom_fields[F]` is untouched; `custom_fields[F]`
is consulted (and rewritten exactly when it equals old) when the top-level
attribute is absent or its value differs from old. -/
theorem c1_field_lookup_precedence (item : Dict) (F old new : String)
    (hF : F ≠ "custom_fields") :
    ((∃ v, dget item F = some v ∧ pyEqStr v old = true) →
        (replaceInItem F old new item).1 = dset item F (pstr new) ∧
        (replaceInItem F old new item).2 = 1 ∧
        customOf (replaceInItem F old new item).1 = customOf item) ∧
    ((∀ v, dget item F = some v → pyEqStr v old = false) →
        dget (replaceInItem F old new item).1 F = dget item F ∧
        (replaceInItem F old new item).1 =
          (if (customOf item).lookup F = some old
           then dset item "custom_fields" (pdict (sset (customOf item) F new))
           else item) ∧
        (replaceInItem F old new item).2 =
          (if (customOf item).lookup F = some old then 1 else 0)) := by
  constructor
  · rintro ⟨v, hv, heq⟩
    rw [replaceInItem_top_hit item F old new v hv heq]
    exact ⟨rfl, rfl, customOf_dset_ne item F (pstr new) hF⟩
  · intro hmiss
    rw [replaceInItem_top_miss item F old new hmiss]
    refine ⟨?_, rfl, rfl⟩
    by_cases hco : (customOf item).lookup F = some old
    · simp only [if_pos hco]
      exact dget_dset_ne _ _ _ _ hF
    · simp only [if_neg hco]

/-- C1 amended witness: the characterization applied to the counterexample
item, hitting the fall-through branch. -/
theorem c1_field_lookup_precedence_witness :
    dget (replaceInItem "state" "X" "Y" c1item).1 "state" = dget c1item "state" ∧
    (replaceInItem "state" "X" "Y" c1item).1 =
      dset c1item "custom_fields" (pdict (sset (customOf c1item) "state" "Y")) ∧
    (replaceInItem "state" "X" "Y" c1item).2 = 1 := by
  have h := (c1_field_lookup_precedence c1item "state" "X" "Y" (by decide)).2
    (fun v hv => by
      have : v = pstr "Done" := by
        have : dget c1item "state" = some (pstr "Done") := by decide
        rw [this] at hv; exact (Option.some.injEq _ _ ▸ hv).symm
      subst this; decide)
  obtain ⟨h1, h2, h3⟩ := h
  refine ⟨h1, ?_, ?_⟩
  · rw [h2]; rw [if_pos (by decide)]
  · rw [h3]; rw [if_pos (by decide)]

/-! ## Claim C4 (corrected) -/

/-- If the first replace left an item, a second replace on it finds nothing —
provided old and new differ and the item does not carry old both as the
top-level value of F and as `custom_fields[F]`. -/
theorem replaceInItem_twice_zero (item : Dict) (F old new : String)
    (hne : old ≠ new)
    (hshadow : ¬(dget item F = some (pstr old) ∧ (customOf item).lookup F = some old)) :
    (replaceInItem F old new (replaceInItem F old new item).1).2 = 0 := by
  by_cases htop : ∃ v, dget item F = some v ∧ pyEqStr v old = true
  · obtain ⟨v, hv, heq⟩ := htop
    have hvp : v = pstr old := (pyEqStr_iff v old).mp heq
    rw [replaceInItem_top_hit item F old new v hv heq]
    have hget2 : dget (dset item F (pstr new)) F = some (pstr new) := dget_dset_self _ _ _
    have hmiss2 : ∀ w, dget (dset item F (pstr new)) F = some w → pyEqStr w old = false := by
      intro w hw
      rw [hget2] at hw
      rw [(Option.some.injEq _ _ ▸ hw : pstr new = w).symm]
      exact pyEqStr_pstr_false new old (fun h => hne h.symm)
    rw [replaceInItem_top_miss _ F old new hmiss2]
    simp only
    rw [if_neg ?_]
    by_cases hF : F = "custom_fields"
    · subst hF
      have hc2 : customOf (dset item "custom_fields" (pstr new)) = [] := by
        unfold customOf; rw [dget_dset_self]
      rw [hc2]; simp
    · rw [customOf_dset_ne item F (pstr new) hF]
      intro hcl
      exact hshadow ⟨hvp ▸ hv, hcl⟩
  · have hmiss : ∀ v, dget item F = some v → pyEqStr v old = false := by
      intro v hv
      by_contra hb
      exact htop ⟨v, hv, by revert hb; cases pyEqStr v old <;> simp⟩
    rw [replaceInItem_top_miss item F old new hmiss]
    by_cases hco : (customOf item).lookup F = some old
    · simp only [if_pos hco]
      have hc2 : customOf (dset item "custom_fields" (pdict (sset (customOf item) F new))) =
          sset (customOf item) F new := customOf_dset_custom _ _
      have hmiss2 : ∀ w, dget (dset item "custom_fields" (pdict (sset (customOf item) F new))) F = some w →
          pyEqStr w old = false := by
        intro w hw
        by_cases hF : F = "custom_fields"
        · subst hF
          rw [dget_dset_self] at hw
          rw [(Option.some.injEq _ _ ▸ hw : pdict (sset (customOf item) "custom_fields" new) = w).symm]
          rfl
        · rw [dget_dset_ne _ _ _ _ hF] at hw
          exact hmiss w hw
      rw [replaceInItem_top_miss _ F old new hmiss2]
      simp only
      rw [if_neg ?_]
      rw [hc2, sget_sset_self]
      simp
      exact fun h => hne h.symm
    · simp only [if_neg hco]
      rw [replaceInItem_top_miss item F old new hmiss]
      simp only
      rw [if_neg hco]

/-- The C4 counterexample item: `state` equals `X` both top-level and as a
custom-field key. -/
def c4item : Dict :=
  [("id", pstr "m_S_0"), ("title", pstr "T"), ("description", pstr ""),
   ("type", pstr "Epic"), ("area_path", pstr "A"), ("iteration_path", pstr ""),
   ("priority", pint 2), ("state", pstr "X"), ("tags", pstr "t"),
   ("source_sheet", pstr "S"), ("source_row", pint 0), ("hierarchy_level", pint 1),
   ("custom_fields", pdict [("state", "X")])]

/-- The C4 counterexample model. -/
def c4model : BulkModel := ⟨[c4item], [pstr "Epic"], 1⟩

/-- C4 counterexample: the first Replace("state", X, Y) rewrites the top-level
attribute, leaving the shadowed `custom_fields["state"] = X` in place; the
second identical call then rewrites the custom entry, so its
replacement_count is 1, not 0. -/
theorem c4_counterexample :
    (bulk_replace_field_value (bulk_replace_field_value c4model "state" "X" "Y").1
        "state" "X" "Y").2 = 1 ∧
    ¬((bulk_replace_field_value (bulk_replace_field_value c4model "state" "X" "Y").1
        "state" "X" "Y").2 = 0) := by
  refine ⟨by decide, by decide⟩

/-- C4 amended: Replace(F, old, new) twice yields replacement_count 0 on the
second call, provided old differs from new and no work item carries old both
as the top-level value of F and as `custom_fields[F]` (the two interferences
exhibited by the counterexample). -/
theorem c4_replace_idempotent (m : BulkModel) (F old new : String)
    (hne : old ≠ new)
    (hshadow : ∀ item ∈ m.work_items,
      ¬(dget item F = some (pstr old) ∧ (customOf item).lookup F = some old)) :
    (bulk_replace_field_value (bulk_replace_field_value m F old new).1 F old new).2 = 0 := by
  unfold bulk_replace_field_value
  simp only [List.map_map]
  apply List.sum_eq_zero
  intro x hx
  simp only [List.mem_map, Function.comp] at hx
  obtain ⟨item0, hmem, hxe⟩ := hx
  rw [← hxe]
  exact replaceInItem_twice_zero item0 F old new hne (hshadow item0 hmem)

/-- The C4 witness model: no top-level/custom shadowing on `state`. -/
def c4wmodel : BulkModel :=
  ⟨[[("id", pstr "m_S_0"), ("title", pstr "T"), ("description", pstr ""),
     ("type", pstr "Epic"), ("area_path", pstr "A"), ("iteration_path", pstr ""),
     ("priority", pint 2), ("state", pstr "X"), ("tags", pstr "t"),
     ("source_sheet", pstr "S"), ("source_row", pint 0), ("hierarchy_level", pint 1),
     ("custom_fields", pdict [("Foo", "Bar")])]], [pstr "Epic"], 1⟩

/-- C4 amended witness. -/
theorem c4_replace_idempotent_witness :
    (bulk_replace_field_value (bulk_replace_field_value c4wmodel "state" "X" "Y").1
      "state" "X" "Y").2 = 0 :=
  c4_replace_idempotent c4wmodel "state" "X" "Y" (by decide) (by decide)

/-! ## Claim C7 -/

/-- Python equality of a string value against an embedded value. -/
theorem pyEq_pstr_iff (t : String) (x : PyVal) : pyEq (pstr t) x = true ↔ x = pstr t := by
  cases x <;> simp [pyEq]
  exact comm

/-- Membership of a string value in a set built by repeated insertion. -/
theorem pyMem_pstr_foldl_insert (t : String) (l : List PyVal) :
    ∀ acc, pyMem (pstr t) (l.foldl pyInsert acc) =
      (pyMem (pstr t) acc || l.any (fun x => pyEq (pstr t) x)) := by
  induction l with
  | nil => intro acc; simp
  | cons x tl ih =>
    intro acc
    rw [List.foldl_cons, ih]
    unfold pyInsert
    by_cases hx : pyMem x acc = true
    · rw [if_pos hx]
      by_cases he : pyEq (pstr t) x = true
      · have hxt : x = pstr t := (pyEq_pstr_iff t x).mp he
        subst hxt
        simp [List.any_cons, he, hx]
      · have he2 : pyEq (pstr t) x = false := Bool.eq_false_iff.mpr he
        simp [List.any_cons, he2]
    · rw [if_neg hx]
      have hstep : pyMem (pstr t) (acc ++ [x]) = (pyMem (pstr t) acc || pyEq (pstr t) x) := by
        unfold pyMem
        rw [List.any_append]
        simp [List.any_cons]
      rw [hstep]
      simp [List.any_cons, Bool.or_assoc]

/-- Membership in the recomputed type summary. -/
theorem pyMem_recomputeTypes (t : String) (items : List Dict) :
    pyMem (pstr t) (recomputeTypes items) =
      items.any (fun it => pyEq (pstr t) (typeOf it)) := by
  unfold recomputeTypes
  rw [← List.foldl_map typeOf pyInsert, pyMem_pstr_foldl_insert]
  simp only [pyMem, List.any_nil, Bool.false_or]
  induction items with
  | nil => rfl
  | cons a tl ih => simp [ih]

/-- When the defaulted type attribute compares equal to a string value. -/
theorem pyEq_task_typeOf (t : String) (it : Dict) :
    pyEq (pstr t) (typeOf it) = true ↔
      (dget it "type" = some (pstr t) ∨ (dget it "type" = none ∧ t = "Unknown")) := by
  unfold typeOf
  cases hv : dget it "type" with
  | none => simp [pyEq]
  | some v => simp [pyEq_pstr_iff, hv]

/-- Complement counting for a Boolean filter. -/
theorem length_filter_not_eq (l : List Dict) (p : Dict → Bool) :
    (l.filter (fun a => !p a)).length = l.length - (l.filter p).length := by
  induction l with
  | nil => rfl
  | cons a tl ih =>
    have hle : (tl.filter p).length ≤ tl.length := List.length_filter_le _ _
    cases hp : p a <;> simp [List.filter_cons, hp, ih]
    omega

/-- C7 (amended): provided the deletion criterion coincides with the
top-level type test for every item (which holds whenever no item shadows the
type key in its custom fields), deleting by type = Task keeps exactly N - M
items where M counts the items whose type attribute is Task, and writes
N - M into the recomputed summary total_rows; unconditionally, Task is absent
from the recomputed work_item_types set iff no remaining item has type
Task. -/
theorem c7_bulk_delete_type_task (m : BulkModel) :
    ((∀ item ∈ m.work_items,
        deleteMatches "type" "Task" item = (dget item "type" == some (pstr "Task"))) →
      (bulk_delete_items_by_field_value m "type" "Task").1.work_items.length =
          m.work_items.length -
            (m.work_items.filter (fun it => dget it "type" == some (pstr "Task"))).length ∧
      (bulk_delete_items_by_field_value m "type" "Task").1.total_rows =
          m.work_items.length -
            (m.work_items.filter (fun it => dget it "type" == some (pstr "Task"))).length) ∧
    (pyMem (pstr "Task") (bulk_delete_items_by_field_value m "type" "Task").1.work_item_types = false ↔
      ∀ item ∈ (bulk_delete_items_by_field_value m "type" "Task").1.work_items,
        ¬(dget item "type" = some (pstr "Task"))) := by
  have htot : (bulk_delete_items_by_field_value m "type" "Task").1.total_rows =
      (bulk_delete_items_by_field_value m "type" "Task").1.work_items.length := rfl
  have htypes : (bulk_delete_items_by_field_value m "type" "Task").1.work_item_types =
      recomputeTypes ((bulk_delete_items_by_field_value m "type" "Task").1.work_items) := rfl
  constructor
  · intro h
    have hfilter : m.work_items.filter (fun it => !deleteMatches "type" "Task" it) =
        m.work_items.filter (fun it => !(dget it "type" == some (pstr "Task"))) := by
      apply List.filter_congr
      intro it hit
      rw [h it hit]
    have hrem : (bulk_delete_items_by_field_value m "type" "Task").1.work_items =
        m.work_items.filter (fun it => !(dget it "type" == some (pstr "Task"))) := by
      unfold bulk_delete_items_by_field_value
      simp only
      exact hfilter
    constructor
    · rw [hrem]
      exact length_filter_not_eq _ _
    · rw [htot, hrem]
      exact length_filter_not_eq _ _
  · rw [htypes, pyMem_recomputeTypes]
    have hpt : ∀ it : Dict, (pyEq (pstr "Task") (typeOf it) = false ↔
        ¬(dget it "type" = some (pstr "Task"))) := by
      intro it
      rw [Bool.eq_false_iff]
      constructor
      · intro hne hsome
        exact hne ((pyEq_task_typeOf "Task" it).mpr (Or.inl hsome))
      · intro hns htrue
        rcases (pyEq_task_typeOf "Task" it).mp htrue with hs | ⟨-, habs⟩
        · exact hns hs
        · exact absurd habs (by decide)
    constructor
    · intro hfalse item hmem
      have := List.any_eq_false.mp hfalse item hmem
      exact (hpt item).mp (Bool.eq_false_iff.mpr this)
    · intro hall
      apply List.any_eq_false.mpr
      intro item hmem
      have := (hpt item).mpr (hall item hmem)
      simp [this]

/-- The C7 witness model: two items, one of type Task. -/
def c7model : BulkModel :=
  ⟨[[("id", pstr "a"), ("title", pstr "T1"), ("type", pstr "Task"),
     ("custom_fields", pdict [("Area Path", "A")])],
    [("id", pstr "b"), ("title", pstr "T2"), ("type", pstr "Epic"),
     ("custom_fields", pdict [("Area Path", "A")])]],
   [pstr "Task", pstr "Epic"], 2⟩

/-- C7 witness: the theorem applied to the concrete two-item model, with the
no-shadowing hypothesis of the counting half discharged there. -/
theorem c7_bulk_delete_type_task_witness :
    (bulk_delete_items_by_field_value c7model "type" "Task").1.work_items.length =
        c7model.work_items.length -
          (c7model.work_items.filter (fun it => dget it "type" == some (pstr "Task"))).length ∧
    (bulk_delete_items_by_field_value c7model "type" "Task").1.total_rows =
        c7model.work_items.length -
          (c7model.work_items.filter (fun it => dget it "type" == some (pstr "Task"))).length ∧
    (pyMem (pstr "Task") (bulk_delete_items_by_field_value c7model "type" "Task").1.work_item_types = false ↔
      ∀ item ∈ (bulk_delete_items_by_field_value c7model "type" "Task").1.work_items,
        ¬(dget item "type" = some (pstr "Task"))) :=
  ⟨((c7_bulk_delete_type_task c7model).1 (by decide)).1,
   ((c7_bulk_delete_type_task c7model).1 (by decide)).2,
   (c7_bulk_delete_type_task c7model).2⟩

/-! ## Claim C9 -/

/-- C9: a merge request with fewer than 2 model ids or a blank (stripped)
merge name fails with a validation error before any storage access: no read
or write is performed and the store is returned unchanged. -/
theorem c9_merge_validation_before_storage (store : Store) (ids : List String)
    (name newId : String)
    (h : ids.length < 2 ∨ pyStrip name = "") :
    ∃ msg, merge_models store ids name newId =
      (Except.error (MergeError.validation msg), store, ([] : List StoreOp)) := by
  by_cases hl : ids.length < 2
  · exact ⟨"At least 2 models are required for merging", by
      unfold merge_models; rw [if_pos hl]⟩
  · have hb : pyStrip name = "" := h.resolve_left hl
    refine ⟨"Merged model name is required", ?_⟩
    unfold merge_models
    rw [if_neg hl, if_pos hb]

/-- C9 witness: a one-id request against a concrete store. -/
theorem c9_merge_validation_before_storage_witness :
    ∃ msg, merge_models [("m1", (⟨some "F", []⟩ : StoredModel))] ["m1"] "Name" "nid" =
      (Except.error (MergeError.validation msg),
       [("m1", (⟨some "F", []⟩ : StoredModel))], ([] : List StoreOp)) :=
  c9_merge_validation_before_storage _ _ _ _ (Or.inl (by decide))

/-! ## Claim C2 -/

/-- C2: merging two models that each hold one work item with id WI-1 produces
a merged model whose first item keeps id WI-1 (and no synthetic ID), whose
second item is assigned the synthetic id MERGED_0001 (counter starting at 1)
with the displaced original id kept in Original_ID, and whose summary
total_rows is the sum of the two source work-item counts. -/
theorem c2_merge_duplicate_ids (itemA itemB : Dict) (fA fB : Option String)
    (name newId : String)
    (hA1 : dget itemA "id" = some (pstr "WI-1")) (hA2 : dget itemA "ID" = none)
    (hB1 : dget itemB "id" = some (pstr "WI-1")) (hB2 : dget itemB "ID" = none)
    (hname : ¬(pyStrip name = "")) :
    ∃ merged, (merge_models [("m1", ⟨fA, [itemA]⟩), ("m2", ⟨fB, [itemB]⟩)]
        ["m1", "m2"] name newId).1 = Except.ok merged ∧
      ∃ a2 b2, merged.work_items = [a2, b2] ∧
        merged.total_rows = [itemA].length + [itemB].length ∧
        dget a2 "id" = some (pstr "WI-1") ∧ dget a2 "ID" = none ∧
        dget b2 "ID" = some (pstr "MERGED_0001") ∧
        dget b2 "Original_ID" = some (pstr "WI-1") := by
  have hoA : originalIdOf itemA = pstr "WI-1" := by
    unfold originalIdOf; rw [hA2, hA1]; rfl
  have hoB : originalIdOf itemB = pstr "WI-1" := by
    unfold originalIdOf; rw [hB2, hB1]; rfl
  have hload : loadModels [("m1", (⟨fA, [itemA]⟩ : StoredModel)), ("m2", ⟨fB, [itemB]⟩)] ["m1", "m2"] =
      ([StoreOp.read "m1", StoreOp.read "m2"],
       Except.ok [("m1", fA.getD "Model m1", [itemA]), ("m2", fB.getD "Model m2", [itemB])]) := by
    simp [loadModels, storeGet, List.lookup]
  have hstep1 : mergeStep (fA.getD "Model m1") ⟨[], [], 1, [], [], []⟩ itemA =
      mergeCollect ⟨[], [pstr "WI-1"], 1, [], [], []⟩ (dset itemA "Source_Model" (pstr (fA.getD "Model m1"))) := by
    unfold mergeStep
    rw [hoA]
    rw [if_neg (by decide)]
    rfl
  have hstep2 : mergeStep (fB.getD "Model m2")
      (mergeCollect ⟨[], [pstr "WI-1"], 1, [], [], []⟩ (dset itemA "Source_Model" (pstr (fA.getD "Model m1")))) itemB =
      mergeCollect { (mergeCollect ⟨[], [pstr "WI-1"], 1, [], [], []⟩
          (dset itemA "Source_Model" (pstr (fA.getD "Model m1")))) with counter := 2 }
        (dset (dset (dset itemB "ID" (pstr (mergedId 1))) "Original_ID" (pstr "WI-1"))
          "Source_Model" (pstr (fB.getD "Model m2"))) := by
    unfold mergeStep
    rw [hoB]
    rw [if_pos ?cond]
    case cond =>
      show (pyMem (pstr "WI-1") (mergeCollect ⟨[], [pstr "WI-1"], 1, [], [], []⟩ _).usedIds || _) = true
      simp [mergeCollect, pyMem, pyEq]
    rfl
  unfold merge_models
  rw [if_neg (by decide : ¬(["m1", "m2"].length < 2)), if_neg hname, hload]
  simp only [List.foldl_cons, List.foldl_nil, hstep1, hstep2]
  refine ⟨_, rfl, dset itemA "Source_Model" (pstr (fA.getD "Model m1")),
    dset (dset (dset itemB "ID" (pstr (mergedId 1))) "Original_ID" (pstr "WI-1"))
      "Source_Model" (pstr (fB.getD "Model m2")), rfl, rfl, ?_, ?_, ?_, ?_⟩
  · rw [dget_dset_ne _ _ _ _ (by decide), hA1]
  · rw [dget_dset_ne _ _ _ _ (by decide), hA2]
  · rw [dget_dset_ne _ _ _ _ (by decide), dget_dset_ne _ _ _ _ (by decide), dget_dset_self]
    decide
  · rw [dget_dset_ne _ _ _ _ (by decide), dget_dset_self]

/-- First C2 witness item. -/
def c2itemA : Dict :=
  [("id", pstr "WI-1"), ("title", pstr "a"), ("type", pstr "Epic"),
   ("area_path", pstr "A"), ("hierarchy_level", pint 1),
   ("custom_fields", pdict [("Area Path", "A")])]

/-- Second C2 witness item. -/
def c2itemB : Dict :=
  [("id", pstr "WI-1"), ("title", pstr "b"), ("type", pstr "Task"),
   ("area_path", pstr "B"), ("hierarchy_level", pint 1),
   ("custom_fields", pdict [("Area Path", "B")])]

/-- C2 witness: the theorem applied to two concrete one-item models. -/
theorem c2_merge_duplicate_ids_witness :
    ∃ merged, (merge_models [("m1", ⟨some "F1", [c2itemA]⟩), ("m2", ⟨some "F2", [c2itemB]⟩)]
        ["m1", "m2"] "Merged model" "nid").1 = Except.ok merged ∧
      ∃ a2 b2, merged.work_items = [a2, b2] ∧
        merged.total_rows = [c2itemA].length + [c2itemB].length ∧
        dget a2 "id" = some (pstr "WI-1") ∧ dget a2 "ID" = none ∧
        dget b2 "ID" = some (pstr "MERGED_0001") ∧
        dget b2 "Original_ID" = some (pstr "WI-1") :=
  c2_merge_duplicate_ids c2itemA c2itemB (some "F1") (some "F2") "Merged model" "nid"
    (by decide) (by decide) (by decide) (by decide) (by decide)


/-! ## Claim C6 -/

/-- Candidate test against a string parent path and an int level. -/
def isCandStr (q : TreeNode) (p : String) (lvl : Int) : Bool :=
  pyEqStr q.area_path (parentPathOf p) && pyEqInt q.hierarchy_level (lvl - 1)

/-- Candidate predicate of the claim: the node q has area path equal to the
area path of n with its last backslash-separated segment removed, and sits
exactly one hierarchy level above n. -/
def isCand (n q : TreeNode) : Bool :=
  match n.area_path, n.hierarchy_level with
  | pstr p, pint lvl => isCandStr q p lvl
  | _, _ => false

/-- Reduction of `isCand` at string/int metadata. -/
theorem isCand_red (n q : TreeNode) (p : String) (lvl : Int)
    (hap : n.area_path = pstr p) (hl : n.hierarchy_level = pint lvl) :
    isCand n q = isCandStr q p lvl := by
  unfold isCand; rw [hap, hl]

theorem splitOnCharAux_ne_nil (c : Char) (l acc : List Char) :
    splitOnCharAux c l acc ≠ [] := by
  induction l generalizing acc with
  | nil => simp [splitOnCharAux]
  | cons h t ih =>
    unfold splitOnCharAux
    by_cases hc : h = c
    · simp [hc]
    · simpa [hc] using ih (h :: acc)

theorem pySplit_length_pos (c : Char) (s : String) : 0 < (pySplit c s).length :=
  List.length_pos.mpr (splitOnCharAux_ne_nil c s.data [])

theorem parentPathOf_eq_empty_of_single (p : String)
    (h : ¬((pySplit backslash p).length > 1)) : parentPathOf p = "" := by
  unfold parentPathOf
  have hpos := pySplit_length_pos backslash p
  have h1 : (pySplit backslash p).length = 1 := by omega
  have : (pySplit backslash p).dropLast = [] := by
    have := List.length_dropLast (pySplit backslash p)
    rw [h1] at this
    exact List.length_eq_zero.mp (by omega)
  rw [this]
  rfl

/-- `buildAllNodes` under fresh, pairwise-distinct ids: plain mapping. -/
theorem foldl_pdset_append (items : List Dict) (acc : List (PyVal × TreeNode))
    (hfresh : ∀ it ∈ items, ∀ p ∈ acc, pyEq p.1 ((dget it "id").getD pnone) = false)
    (hpair : List.Pairwise (fun a b : Dict =>
      pyEq ((dget a "id").getD pnone) ((dget b "id").getD pnone) = false) items) :
    items.foldl (fun acc item => pdset acc ((dget item "id").getD pnone) (mkNode item)) acc =
      acc ++ items.map (fun it => ((dget it "id").getD pnone, mkNode it)) := by
  induction items generalizing acc with
  | nil => simp
  | cons it tl ih =>
    rw [List.foldl_cons]
    have hnew : pdset acc ((dget it "id").getD pnone) (mkNode it) =
        acc ++ [((dget it "id").getD pnone, mkNode it)] := by
      unfold pdset
      rw [if_neg ?_]
      simp only [List.any_eq_true, not_exists]
      rintro p ⟨hp1, hp2⟩
      rw [hfresh it (List.mem_cons_self _ _) p hp1] at hp2
      exact Bool.false_ne_true hp2
    rw [hnew, ih]
    · simp
    · intro it2 hit2 p hp
      rcases List.mem_append.mp hp with h | h
      · exact hfresh it2 (List.mem_cons_of_mem _ hit2) p h
      · have hpe : p = ((dget it "id").getD pnone, mkNode it) := by simpa using h
        rw [hpe]
        exact (List.pairwise_cons.mp hpair).1 it2 hit2
    · exact (List.pairwise_cons.mp hpair).2

/-- With no candidate in the node list, the parent search fails. -/
theorem findParent_eq_none (nodes : List TreeNode) (n : TreeNode)
    (h : ∀ q ∈ nodes, isCand n q = false) :
    findParent nodes n = none := by
  unfold findParent
  cases hap : n.area_path with
  | pstr p =>
    cases hl : n.hierarchy_level with
    | pint lvl =>
      show findParentStr nodes p lvl = none
      unfold findParentStr
      by_cases hp : p ≠ ""
      · rw [if_pos hp]
        by_cases hlen : (pySplit backslash p).length > 1
        · rw [if_pos hlen]
          apply List.find?_eq_none.mpr
          intro q hq
          have hthis := h q hq
          rw [isCand_red n q p lvl hap hl] at hthis
          unfold isCandStr at hthis
          simp [hthis]
        · rw [if_neg hlen]
      · rw [if_neg hp]
    | pstr s => rfl
    | pdict m => rfl
    | pnone => rfl
  | pint i => rfl
  | pdict m => rfl
  | pnone => rfl

/-- With at least one candidate and nonempty area paths, the search finds the
first candidate. -/
theorem findParent_eq_some (nodes : List TreeNode) (n : TreeNode)
    (p : String) (lvl : Int)
    (hap : n.area_path = pstr p) (hp : p ≠ "") (hl : n.hierarchy_level = pint lvl)
    (q : TreeNode) (hq : q ∈ nodes) (hcand : isCand n q = true)
    (hqa : ∃ pq, q.area_path = pstr pq ∧ pq ≠ "") :
    ∃ q0 ∈ nodes, findParent nodes n = some q0 ∧ isCand n q0 = true := by
  have hcand2 : pyEqStr q.area_path (parentPathOf p) = true ∧
      pyEqInt q.hierarchy_level (lvl - 1) = true := by
    rw [isCand_red n q p lvl hap hl] at hcand
    unfold isCandStr at hcand
    exact Bool.and_eq_true_iff.mp hcand
  have hqap : q.area_path = pstr (parentPathOf p) := (pyEqStr_iff _ _).mp hcand2.1
  have hlen : (pySplit backslash p).length > 1 := by
    by_contra hno
    have hempty := parentPathOf_eq_empty_of_single p hno
    obtain ⟨pq, hpq, hpqne⟩ := hqa
    rw [hqap, hempty] at hpq
    exact hpqne (by injection hpq with h; exact h.symm)
  have hfind : ∃ q0, nodes.find? (fun q2 =>
      pyEqStr q2.area_path (parentPathOf p) && pyEqInt q2.hierarchy_level (lvl - 1)) = some q0 := by
    cases hf : nodes.find? (fun q2 =>
        pyEqStr q2.area_path (parentPathOf p) && pyEqInt q2.hierarchy_level (lvl - 1)) with
    | some q0 => exact ⟨q0, rfl⟩
    | none =>
      exfalso
      have := List.find?_eq_none.mp hf q hq
      rw [hcand2.1, hcand2.2] at this
      simp at this
  obtain ⟨q0, hq0⟩ := hfind
  refine ⟨q0, List.mem_of_find?_eq_some hq0, ?_, ?_⟩
  · unfold findParent
    rw [hap, hl]
    show findParentStr nodes p lvl = some q0
    unfold findParentStr
    rw [if_pos hp, if_pos hlen]
    exact hq0
  · have hpred := List.find?_some hq0
    rw [isCand_red n q0 p lvl hap hl]
    unfold isCandStr
    exact hpred

/-- Counting an element of a duplicate-free list inside a filter. -/
theorem count_filter_nodup {α : Type} [DecidableEq α] (l : List α) (hn : l.Nodup)
    (a : α) (ha : a ∈ l) (p : α → Bool) :
    (l.filter p).count a = if p a then 1 else 0 := by
  induction l with
  | nil => cases ha
  | cons x tl ih =>
    rcases List.mem_cons.mp ha with rfl | hmem
    · have hna : a ∉ tl := (List.nodup_cons.mp hn).1
      have hnf : a ∉ tl.filter p := fun hm => hna (List.mem_of_mem_filter hm)
      have hcz : (tl.filter p).count a = 0 := List.count_eq_zero.mpr hnf
      by_cases hp : p a
      · rw [List.filter_cons_of_pos hp, List.count_cons_self, hcz, if_pos hp]
      · rw [List.filter_cons_of_neg hp, hcz, if_neg hp]
    · have hxa : x ≠ a := fun h => (List.nodup_cons.mp hn).1 (h ▸ hmem)
      have ihm := ih (List.nodup_cons.mp hn).2 hmem
      by_cases hp : p x
      · rw [List.filter_cons_of_pos hp, List.count_cons_of_ne (fun h => hxa h.symm), ihm]
      · rw [List.filter_cons_of_neg hp, ihm]

/-- Sum of a function over a duplicate-free list that vanishes away from one
member. -/
theorem sum_map_single {α : Type} [DecidableEq α] (l : List α) (hn : l.Nodup)
    (q0 : α) (hq0 : q0 ∈ l) (f : α → Nat) (hf0 : ∀ q ∈ l, q ≠ q0 → f q = 0) :
    (l.map f).sum = f q0 := by
  induction l with
  | nil => cases hq0
  | cons x tl ih =>
    rcases List.mem_cons.mp hq0 with rfl | hmem
    · have hx : q0 ∉ tl := (List.nodup_cons.mp hn).1
      simp only [List.map_cons, List.sum_cons]
      have hz : (tl.map f).sum = 0 := by
        apply List.sum_eq_zero
        intro y hy
        simp only [List.mem_map] at hy
        obtain ⟨q, hq, rfl⟩ := hy
        exact hf0 q (List.mem_cons_of_mem _ hq) (fun h => hx (h ▸ hq))
      rw [hz]
      omega
    · have hxq : x ≠ q0 := fun h => (List.nodup_cons.mp hn).1 (h ▸ hmem)
      simp only [List.map_cons, List.sum_cons]
      rw [hf0 x (List.mem_cons_self _ _) hxq,
        ih (List.nodup_cons.mp hn).2 hmem
          (fun q hq hne => hf0 q (List.mem_cons_of_mem _ hq) hne)]
      omega

/-- A found parent is a node of the list. -/
theorem findParent_mem (nodes : List TreeNode) (n q0 : TreeNode)
    (h : findParent nodes n = some q0) : q0 ∈ nodes := by
  unfold findParent at h
  cases hap : n.area_path with
  | pstr p =>
    rw [hap] at h
    cases hl : n.hierarchy_level with
    | pint lvl =>
      rw [hl] at h
      have h2 : findParentStr nodes p lvl = some q0 := h
      unfold findParentStr at h2
      by_cases hp : p ≠ ""
      · rw [if_pos hp] at h2
        by_cases hlen : (pySplit backslash p).length > 1
        · rw [if_pos hlen] at h2
          exact List.mem_of_find?_eq_some h2
        · rw [if_neg hlen] at h2; cases h2
      · rw [if_neg hp] at h2; cases h2
    | pstr s => rw [hl] at h; cases h
    | pdict m => rw [hl] at h; cases h
    | pnone => rw [hl] at h; cases h
  | pint i => rw [hap] at h; cases h
  | pdict m => rw [hap] at h; cases h
  | pnone => rw [hap] at h; cases h

/-- C6: in the tree built from a flat work-item list with pairwise-distinct
string ids, nonempty string area paths and integer hierarchy levels, every
node with at least one candidate parent (a node at its area path with the
last segment removed and exactly one level up) is attached as a child of such
a candidate; a node with no candidate appears among the roots; one node is
built per input item and each node occurs exactly once across the root list
and all children lists. -/
theorem c6_tree_parent_resolution (items : List Dict)
    (hids : ∃ ss : List String,
      items.map (fun it => (dget it "id").getD pnone) = ss.map pstr ∧ ss.Nodup)
    (hwf : ∀ item ∈ items,
      (∃ p, resolvedAreaPath item = pstr p ∧ p ≠ "") ∧
      (∃ l : Int, (dget item "hierarchy_level").getD (pint 1) = pint l)) :
    ((buildAllNodes items).map (fun pr => pr.2) = items.map mkNode) ∧
    (build_tree_structure items).total_items = items.length ∧
    (∀ n ∈ (buildAllNodes items).map (fun pr => pr.2),
      (∃ q ∈ (buildAllNodes items).map (fun pr => pr.2), isCand n q = true) →
      ∃ q ∈ (buildAllNodes items).map (fun pr => pr.2), isCand n q = true ∧
        n ∈ childrenOf ((buildAllNodes items).map (fun pr => pr.2)) q) ∧
    (∀ n ∈ (buildAllNodes items).map (fun pr => pr.2),
      (¬∃ q ∈ (buildAllNodes items).map (fun pr => pr.2), isCand n q = true) →
      n ∈ (build_tree_structure items).roots) ∧
    (∀ n ∈ (buildAllNodes items).map (fun pr => pr.2),
      (build_tree_structure items).roots.count n +
        (((buildAllNodes items).map (fun pr => pr.2)).map
          (fun q => (childrenOf ((buildAllNodes items).map (fun pr => pr.2)) q).count n)).sum = 1) := by
  obtain ⟨ss, hmap, hnodup⟩ := hids
  -- pairwise-distinct keys, all strings
  have hkeysdist : List.Pairwise (fun a b : Dict =>
      pyEq ((dget a "id").getD pnone) ((dget b "id").getD pnone) = false) items := by
    have h2 : List.Pairwise (fun a b : String => pyEq (pstr a) (pstr b) = false) ss :=
      hnodup.imp (fun hne => by simpa [pyEq] using hne)
    have h1 : List.Pairwise (fun a b : PyVal => pyEq a b = false)
        (items.map (fun it => (dget it "id").getD pnone)) := by
      rw [hmap]
      exact (List.pairwise_map).mpr h2
    exact (List.pairwise_map).mp h1
  have hnodes : buildAllNodes items =
      items.map (fun it => ((dget it "id").getD pnone, mkNode it)) := by
    unfold buildAllNodes
    have := foldl_pdset_append items [] (by simp) hkeysdist
    simpa using this
  have hnodeseq : (buildAllNodes items).map (fun pr => pr.2) = items.map mkNode := by
    rw [hnodes, List.map_map]
    rfl
  -- the node list is duplicate-free
  have hkeysnodup : (items.map (fun it => (dget it "id").getD pnone)).Nodup := by
    rw [hmap]
    exact hnodup.map (fun a b h => by injection h)
  have hnn : ((buildAllNodes items).map (fun pr => pr.2)).Nodup := by
    rw [hnodeseq]
    apply List.Nodup.of_map TreeNode.nid
    have : (items.map mkNode).map TreeNode.nid =
        items.map (fun it => (dget it "id").getD pnone) := by
      rw [List.map_map]
      rfl
    rw [this]
    exact hkeysnodup
  -- node-level well-formedness
  have hnwf : ∀ n ∈ (buildAllNodes items).map (fun pr => pr.2),
      (∃ p, n.area_path = pstr p ∧ p ≠ "") ∧
      (∃ l : Int, n.hierarchy_level = pint l) := by
    rw [hnodeseq]
    intro n hn
    obtain ⟨it, hit, rfl⟩ := List.mem_map.mp hn
    obtain ⟨⟨p, hp1, hp2⟩, ⟨l, hl⟩⟩ := hwf it hit
    exact ⟨⟨p, hp1, hp2⟩, ⟨l, hl⟩⟩
  have hroots : (build_tree_structure items).roots =
      ((buildAllNodes items).map (fun pr => pr.2)).filter
        (fun n => (findParent ((buildAllNodes items).map (fun pr => pr.2)) n).isNone) := rfl
  refine ⟨hnodeseq, rfl, ?_, ?_, ?_⟩
  · -- attachment when a candidate exists
    intro n hn ⟨q, hq, hcand⟩
    obtain ⟨⟨p, hp1, hp2⟩, ⟨lvl, hl⟩⟩ := hnwf n hn
    obtain ⟨q0, hq0mem, hq0find, hq0cand⟩ :=
      findParent_eq_some _ n p lvl hp1 hp2 hl q hq hcand ((hnwf q hq).1)
    refine ⟨q0, hq0mem, hq0cand, ?_⟩
    unfold childrenOf
    rw [List.mem_filter]
    exact ⟨hn, by rw [hq0find]; simp⟩
  · -- rooting when no candidate exists
    intro n hn hno
    have hfp : findParent ((buildAllNodes items).map (fun pr => pr.2)) n = none := by
      apply findParent_eq_none
      intro q hq
      by_contra hb
      exact hno ⟨q, hq, by revert hb; cases isCand n q <;> simp⟩
    rw [hroots, List.mem_filter]
    exact ⟨hn, by rw [hfp]; rfl⟩
  · -- each node appears exactly once among roots and children lists
    intro n hn
    cases hfp : findParent ((buildAllNodes items).map (fun pr => pr.2)) n with
    | none =>
      have hc1 : (build_tree_structure items).roots.count n = 1 := by
        rw [hroots, count_filter_nodup _ hnn n hn, hfp]
        rfl
      have hc2 : (((buildAllNodes items).map (fun pr => pr.2)).map
          (fun q => (childrenOf ((buildAllNodes items).map (fun pr => pr.2)) q).count n)).sum = 0 := by
        apply List.sum_eq_zero
        intro y hy
        obtain ⟨q, hq, rfl⟩ := List.mem_map.mp hy
        unfold childrenOf
        rw [count_filter_nodup _ hnn n hn, hfp]
        rfl
      rw [hc1, hc2]
    | some q0 =>
      have hq0mem : q0 ∈ (buildAllNodes items).map (fun pr => pr.2) :=
        findParent_mem _ n q0 hfp
      have hc1 : (build_tree_structure items).roots.count n = 0 := by
        rw [hroots, count_filter_nodup _ hnn n hn, hfp]
        rfl
      have hc2 : (((buildAllNodes items).map (fun pr => pr.2)).map
          (fun q => (childrenOf ((buildAllNodes items).map (fun pr => pr.2)) q).count n)).sum = 1 := by
        rw [sum_map_single _ hnn q0 hq0mem _ ?_]
        · unfold childrenOf
          rw [count_filter_nodup _ hnn n hn, hfp]
          simp
        · intro q hq hne
          unfold childrenOf
          rw [count_filter_nodup _ hnn n hn, hfp]
          simp [hne]
          intro habs
          exact absurd habs.symm hne
      rw [hc1, hc2]

/-- The C6 witness items: a level-1 parent at path A and a level-2 child at
path A backslash B. -/
def c6items : List Dict :=
  [[("id", pstr "a"), ("title", pstr "P"), ("type", pstr "Epic"), ("state", pstr "New"),
    ("priority", pint 2), ("area_path", pstr "A"), ("hierarchy_level", pint 1),
    ("description", pstr ""), ("custom_fields", pdict [("Area Path", "A")])],
   [("id", pstr "b"), ("title", pstr "C"), ("type", pstr "Feature"), ("state", pstr "New"),
    ("priority", pint 2), ("area_path", pstr "A\\B"), ("hierarchy_level", pint 2),
    ("description", pstr ""), ("custom_fields", pdict [("Area Path", "A\\B")])]]

/-- C6 witness: the theorem applied to the concrete two-item list. -/
theorem c6_tree_parent_resolution_witness :
    ((buildAllNodes c6items).map (fun pr => pr.2) = c6items.map mkNode) ∧
    (build_tree_structure c6items).total_items = c6items.length ∧
    (∀ n ∈ (buildAllNodes c6items).map (fun pr => pr.2),
      (∃ q ∈ (buildAllNodes c6items).map (fun pr => pr.2), isCand n q = true) →
      ∃ q ∈ (buildAllNodes c6items).map (fun pr => pr.2), isCand n q = true ∧
        n ∈ childrenOf ((buildAllNodes c6items).map (fun pr => pr.2)) q) ∧
    (∀ n ∈ (buildAllNodes c6items).map (fun pr => pr.2),
      (¬∃ q ∈ (buildAllNodes c6items).map (fun pr => pr.2), isCand n q = true) →
      n ∈ (build_tree_structure c6items).roots) ∧
    (∀ n ∈ (buildAllNodes c6items).map (fun pr => pr.2),
      (build_tree_structure c6items).roots.count n +
        (((buildAllNodes c6items).map (fun pr => pr.2)).map
          (fun q => (childrenOf ((buildAllNodes c6items).map (fun pr => pr.2)) q).count n)).sum = 1) :=
  c6_tree_parent_resolution c6items ⟨["a", "b"], by decide, by decide⟩ (by
    intro item hitem
    fin_cases hitem
    · exact ⟨⟨"A", by decide, by decide⟩, ⟨1, by decide⟩⟩
    · exact ⟨⟨"A\\B", by decide, by decide⟩, ⟨2, by decide⟩⟩)

/-- The C7 counterexample model: one item of type Epic shadowed by a
custom-field entry type = Task. -/
def c7cexmodel : BulkModel :=
  ⟨[[("id", pstr "a"), ("title", pstr "T"), ("type", pstr "Epic"),
     ("custom_fields", pdict [("type", "Task")])]], [pstr "Epic"], 1⟩

/-- C7 counterexample: the delete criterion falls through to custom_fields,
so an item whose type attribute is Epic is deleted because its custom-field
entry type equals Task; the model has N = 1 items of which M = 0 have type
Task, yet 0 items remain instead of N - M = 1. -/
theorem c7_counterexample :
    (c7cexmodel.work_items.filter (fun it => dget it "type" == some (pstr "Task"))).length = 0 ∧
    c7cexmodel.work_items.length = 1 ∧
    (bulk_delete_items_by_field_value c7cexmodel "type" "Task").1.work_items.length = 0 ∧
    ¬((bulk_delete_items_by_field_value c7cexmodel "type" "Task").1.work_items.length =
      c7cexmodel.work_items.length -
        (c7cexmodel.work_items.filter (fun it => dget it "type" == some (pstr "Task"))).length) := by
  refine ⟨by decide, by decide, by decide, by decide⟩

end Fasttrack
